import Mathlib

/-!
Verification of the email-verifier web backend.

The TypeScript handlers are shallowly embedded over `List Char` (for text
processed by the CSV pipeline) and over an explicit relational state `DB`
(for the handlers that read and write the store).  Each definition mirrors
one source function:

* `parseCSVRow`    — the `parseCSVRow` helper of the upload handler;
* `csvLines`       — the `csvContent.trim().split('\n')` line splitting;
* `uploadCsv`      — the `uploadCsv` handler (decode, column resolution,
                     persistence of the upload row and its email records);
* `classify`       — `simulateMillionVerifierAPI`'s status verdict;
* `validateEmails` — the synchronous part of the `validateEmails` handler
                     (state checks, the processing flip, the empty-records
                     shortcut, and the scheduling of the background job);
* `getUploadResults` — the results/summary handler;
* `downloadValidatedCsv` — modelled from the spec (see its doc comment).
-/

/-- JavaScript whitespace recognised by `String.prototype.trim` (the ASCII
part, which is all the pipeline relies on). -/
def isJsSpace (c : Char) : Bool :=
  c = ' ' || c = '\t' || c = '\n' || c = '\r' || c = '\x0b' || c = '\x0c'

/-- Embedding of JavaScript `s.trim()`: drop whitespace from both ends. -/
def jsTrim (l : List Char) : List Char :=
  ((l.dropWhile isJsSpace).reverse.dropWhile isJsSpace).reverse

/-- Worker for `splitNL`: accumulates the current segment (reversed). -/
def splitAux : List Char → List Char → List (List Char)
  | [], acc => [acc.reverse]
  | c :: cs, acc =>
    if c = '\n' then acc.reverse :: splitAux cs [] else splitAux cs (c :: acc)

/-- Embedding of JavaScript `s.split('\n')` (never returns an empty list;
`"".split('\n')` is `[""]`). -/
def splitNL (l : List Char) : List (List Char) :=
  splitAux l []

/-- The line-splitting step of `uploadCsv`: `csvContent.trim().split('\n')`. -/
def csvLines (content : List Char) : List (List Char) :=
  splitNL (jsTrim content)

/-- Embedding of JavaScript `s.toLowerCase()` on the ASCII range. -/
def lowerStr (l : List Char) : List Char :=
  l.map Char.toLower

/-- Embedding of JavaScript `s.includes(sub)` (substring containment). -/
def containsSub (sub l : List Char) : Bool :=
  decide (sub <:+: l)

/-- UTF-8 byte length of the decoded content (`Buffer.byteLength(_, 'utf-8')`). -/
def utf8Len (l : List Char) : Nat :=
  l.foldl (fun n c => n + c.utf8Size) 0

/-- Worker of `parseCSVRow`: the quote-aware field scanner.  `inQ` is the
`inQuotes` flag, `cur` the current field accumulated in reverse. -/
def parseFields : List Char → Bool → List Char → List (List Char)
  | [], _, cur => [cur.reverse]
  | '"' :: '"' :: rest, true, cur => parseFields rest true ('"' :: cur)
  | '"' :: rest, true, cur => parseFields rest false cur
  | '"' :: rest, false, cur => parseFields rest true cur
  | ',' :: rest, false, cur => cur.reverse :: parseFields rest false []
  | c :: rest, inQ, cur => parseFields rest inQ (c :: cur)

/-- Embedding of the source's `parseCSVRow`: scan one line into fields,
honouring quotes and the `""` escape, then trim every field. -/
def parseCSVRow (row : List Char) : List (List Char) :=
  (parseFields row false []).map jsTrim

/-- The auto-detection branch of `uploadCsv`'s column resolution:
`headers.find(h => h.toLowerCase().includes('email') ||
h.toLowerCase().includes('mail')) || headers[0]`. -/
def autoDetect (headers : List (List Char)) : List Char :=
  match headers.find? (fun h =>
      containsSub "email".toList (lowerStr h) ||
      containsSub "mail".toList (lowerStr h)) with
  | some h => h
  | none => headers.headD []

/-- The `additional_data` object built for one data row: every header except
the email column, mapped to the row's field (missing fields become `""`). -/
def mkAdditional (headers : List (List Char)) (emailIdx : Nat)
    (row : List (List Char)) : List (List Char × List Char) :=
  headers.enum.filterMap fun p =>
    if p.1 = emailIdx then none else some (p.2, row.getD p.1 [])

/-- One persisted email record, as built by the `uploadCsv` row loop. -/
structure UploadRow where
  row_number : Nat
  email : List Char
  additional_data : List (List Char × List Char)
deriving DecidableEq, Repr

/-- The record built for data row `i` (the email value is trimmed, as in
`email.trim()`). -/
def mkUploadRow (headers : List (List Char)) (emailIdx i : Nat)
    (row : List (List Char)) : UploadRow :=
  { row_number := i
    email := jsTrim (row.getD emailIdx [])
    additional_data := mkAdditional headers emailIdx row }

/-- Everything `uploadCsv` persists and returns on success:
`uploadTotalRows`/`uploadFileSize` are the columns written to the
`csv_uploads` row, `records` the bulk-inserted email records, and
`responseTotalRows` the `total_rows` of the returned `UploadResponse`. -/
structure UploadOutcome where
  uploadTotalRows : Nat
  uploadFileSize : Nat
  emailColumn : List Char
  detectedColumns : List (List Char)
  records : List UploadRow
  responseTotalRows : Nat
deriving DecidableEq, Repr

/-- The error paths of `uploadCsv` (each a distinct thrown message). -/
inductive UploadErr where
  | malformedInput
  | noColumns
  | columnNotFound
deriving DecidableEq, Repr

/-- The column resolution of `uploadCsv`: `let emailColumn =
input.email_column; if (!emailColumn) { emailColumn = headers.find(...) ||
headers[0] }` (a missing and an empty hint are both falsy). -/
def resolveEmailColumn (headers : List (List Char))
    (hint : Option (List Char)) : List Char :=
  match hint with
  | some h => if h = [] then autoDetect headers else h
  | none => autoDetect headers

/-- Whether the row loop of `uploadCsv` skips a row:
`rowData.every(cell => cell.trim() === '')`. -/
def blankRow (row : List (List Char)) : Bool :=
  row.all (fun cell => (jsTrim cell).isEmpty)

/-- The row loop of `uploadCsv`: one record per non-blank data row
(`i` runs over the 1-based data line indices). -/
def uploadRecords (lines headers : List (List Char)) (emailIdx : Nat) :
    List UploadRow :=
  (List.range' 1 (lines.length - 1)).filterMap fun i =>
    let row := parseCSVRow (lines.getD i [])
    if blankRow row then none
    else some (mkUploadRow headers emailIdx i row)

/-- The success value of `uploadCsv` (the persisted columns, the bulk
insert, and the returned response). -/
def uploadOutcomeOf (content : List Char) (hint : Option (List Char)) :
    UploadOutcome :=
  { uploadTotalRows := (csvLines content).length - 1
    uploadFileSize := utf8Len content
    emailColumn :=
      resolveEmailColumn (parseCSVRow ((csvLines content).getD 0 [])) hint
    detectedColumns := parseCSVRow ((csvLines content).getD 0 [])
    records :=
      uploadRecords (csvLines content)
        (parseCSVRow ((csvLines content).getD 0 []))
        ((parseCSVRow ((csvLines content).getD 0 [])).findIdx
          (· == resolveEmailColumn
            (parseCSVRow ((csvLines content).getD 0 [])) hint))
    responseTotalRows :=
      (uploadRecords (csvLines content)
        (parseCSVRow ((csvLines content).getD 0 []))
        ((parseCSVRow ((csvLines content).getD 0 [])).findIdx
          (· == resolveEmailColumn
            (parseCSVRow ((csvLines content).getD 0 [])) hint))).length }

/-- Embedding of the `uploadCsv` handler.  `content` is the decoded CSV
text, `hint` the optional `email_column` input. -/
def uploadCsv (content : List Char) (hint : Option (List Char)) :
    Except UploadErr UploadOutcome :=
  if (csvLines content).length < 2 then .error .malformedInput
  else if (parseCSVRow ((csvLines content).getD 0 [])).length = 0 then
    .error .noColumns
  else if resolveEmailColumn (parseCSVRow ((csvLines content).getD 0 [])) hint
      ∈ parseCSVRow ((csvLines content).getD 0 []) then
    .ok (uploadOutcomeOf content hint)
  else .error .columnNotFound

/-- The decode step seen as a whole: each line of the buffer parsed into
fields (the header row is `(csvDecode c).headD []`, the data rows the rest). -/
def csvDecode (content : List Char) : List (List (List Char)) :=
  (csvLines content).map parseCSVRow

/-- The seven validation statuses of the MillionVerifier enum. -/
inductive VStatus where
  | ok
  | catch_all
  | unknown
  | error
  | disposable
  | invalid
  | duplicate
deriving DecidableEq, Repr

/-- Lifecycle status of an upload. -/
inductive UStatus where
  | uploaded
  | processing
  | completed
  | failed
deriving DecidableEq, Repr

/-- A row of the `csv_uploads` relation (the columns the handlers read or
write; timestamps are abstract `Nat` instants). -/
structure Upload where
  id : Nat
  filename : List Char
  total_rows : Nat
  email_column : Option (List Char)
  status : UStatus
  completed_at : Option Nat
deriving DecidableEq, Repr

/-- A row of the `email_records` relation.  `additional_data` is kept in its
parsed form (`none` stands for a missing or unparseable serialized blob). -/
structure Rec where
  id : Nat
  upload_id : Nat
  row_number : Nat
  email : List Char
  validation_status : Option VStatus
  validated_at : Option Nat
  additional_data : Option (List (List Char × List Char))
deriving DecidableEq, Repr

/-- The relational store: the two relations the handlers touch. -/
structure DB where
  uploads : List Upload
  records : List Rec
deriving DecidableEq, Repr

/-- The status verdict of `simulateMillionVerifierAPI` for one email
string (the `resultcode` of the simulated payload is determined by it). -/
def classify (email : List Char) : VStatus :=
  if ¬ containsSub "@".toList email then .invalid
  else if containsSub "disposable".toList email ||
          containsSub "temp".toList email then .disposable
  else if containsSub "catch_all".toList email then .catch_all
  else .ok

/-- The `resultcode` field of the simulated MillionVerifier payload. -/
def classifyCode (email : List Char) : Nat :=
  match classify email with
  | .invalid => 2
  | .disposable => 4
  | .catch_all => 3
  | _ => 1

/-- The error paths of the `validateEmails` handler. -/
inductive VErr where
  | notFound
  | alreadyProcessing
  | alreadyCompleted
  | unrecoverableState
deriving DecidableEq, Repr

/-- The acknowledgement message for the zero-records shortcut. -/
def noRecordsMsg (id : Nat) : List Char :=
  "No email records found for upload ".data ++ (Nat.repr id).data ++
    ". Upload marked as completed.".data

/-- The acknowledgement message when the background job is scheduled. -/
def startedMsg (id : Nat) : List Char :=
  "Email validation started for upload ".data ++ (Nat.repr id).data ++
    ". This process will run in the background.".data

/-- Embedding of `db.update(csvUploadsTable).set(...).where(id = uploadId)`
for the two status flips of `validateEmails`. -/
def setUploadStatus (db : DB) (id : Nat) (st : UStatus)
    (doneAt : Option Nat) : DB :=
  { db with
    uploads := db.uploads.map fun u =>
      if u.id = id then
        { u with status := st,
                 completed_at := match doneAt with
                                 | some t => some t
                                 | none => u.completed_at }
      else u }

/-- Embedding of the synchronous part of the `validateEmails` handler.
Returns the store as left when the handler returns (or throws), the
acknowledgement message, and the list of records handed to the deferred
`validateEmailsBackground` job (`none` when no job is scheduled). -/
def validateEmails (now id : Nat) (db : DB) :
    DB × Except VErr (List Char × Option (List Rec)) :=
  match db.uploads.find? (fun u => u.id == id) with
  | none => (db, .error .notFound)
  | some u =>
    if u.status = .processing then (db, .error .alreadyProcessing)
    else if u.status = .completed then (db, .error .alreadyCompleted)
    else if u.status = .failed then (db, .error .unrecoverableState)
    else
      let db1 := setUploadStatus db id .processing none
      let recs := db1.records.filter (fun r => r.upload_id == id)
      if recs.isEmpty then
        (setUploadStatus db1 id .completed (some now),
         .ok (noRecordsMsg id, none))
      else
        (db1, .ok (startedMsg id, some recs))

/-- The error path of `getUploadResults`. -/
inductive GErr where
  | notFound
deriving DecidableEq, Repr

/-- The summary block computed by `getUploadResults`. -/
structure Summary where
  total : Nat
  validated : Nat
  ok : Nat
  invalid : Nat
  disposable : Nat
  catch_all : Nat
  unknown : Nat
  error : Nat
  duplicate : Nat
deriving DecidableEq, Repr

/-- The response of `getUploadResults`. -/
structure ResultsView where
  upload : Upload
  records : List Rec
  summary : Summary
deriving DecidableEq, Repr

/-- Embedding of the `getUploadResults` handler: fetch the upload, fetch its
records, and compute the summary with one `filter(...).length` per count. -/
def getUploadResults (id : Nat) (db : DB) : Except GErr ResultsView :=
  match db.uploads.find? (fun u => u.id == id) with
  | none => .error .notFound
  | some u =>
    let records := db.records.filter (fun r => r.upload_id == id)
    .ok { upload := u
          records := records
          summary :=
            { total := records.length
              validated := records.countP (fun r => r.validation_status.isSome)
              ok := records.countP (fun r => r.validation_status == some .ok)
              invalid := records.countP (fun r => r.validation_status == some .invalid)
              disposable := records.countP (fun r => r.validation_status == some .disposable)
              catch_all := records.countP (fun r => r.validation_status == some .catch_all)
              unknown := records.countP (fun r => r.validation_status == some .unknown)
              error := records.countP (fun r => r.validation_status == some .error)
              duplicate := records.countP (fun r => r.validation_status == some .duplicate) } }

/-- Spec encode contract: a field is quoted, with internal quotes doubled,
exactly when it contains a comma, quote, or newline. -/
def encodeField (f : List Char) : List Char :=
  if containsSub ",".toList f || containsSub "\"".toList f ||
     containsSub "\n".toList f then
    '"' :: (f.flatMap fun c => if c = '"' then ['"', '"'] else [c]) ++ ['"']
  else f

/-- Spec encode contract: fields joined with commas, lines with newlines. -/
def encodeRows (rows : List (List (List Char))) : List Char :=
  List.intercalate ['\n']
    (rows.map fun row => List.intercalate [','] (row.map encodeField))

/-- Insertion of one record into a list sorted by `row_number`. -/
def insertByRow (r : Rec) : List Rec → List Rec
  | [] => [r]
  | x :: xs =>
    if r.row_number ≤ x.row_number then r :: x :: xs
    else x :: insertByRow r xs

/-- Sorting records by `row_number` ascending (stable insertion sort). -/
def sortByRow : List Rec → List Rec
  | [] => []
  | x :: xs => insertByRow x (sortByRow xs)

/-- Display name of a validation status (the enum literal stored at rest). -/
def statusName : Option VStatus → List Char
  | none => []
  | some .ok => "ok".toList
  | some .catch_all => "catch_all".toList
  | some .unknown => "unknown".toList
  | some .error => "error".toList
  | some .disposable => "disposable".toList
  | some .invalid => "invalid".toList
  | some .duplicate => "duplicate".toList

/-- The error paths of the download handler. -/
inductive DlErr where
  | notFound
  | noRecords
deriving DecidableEq, Repr

/-- The download response: generated filename stem, CSV text (base64 in the
transport layer), and the fixed MIME type. -/
structure DlResp where
  filename : List Char
  content : List Char
  mime : List Char
deriving DecidableEq, Repr

/-- The CSV body reconstructed for a download, per the spec: original
columns from the first record's `additional_data` keys, the email column
forced present, three trailing validation columns, rows by `row_number`. -/
def downloadBody (emailCol : List Char) (records : List Rec) : List Char :=
  let origCols :=
    match records with
    | [] => []
    | r :: _ => (r.additional_data.getD []).map Prod.fst
  let cols := if emailCol ∈ origCols then origCols else origCols ++ [emailCol]
  let header := cols ++ ["validation_status".toList, "validation_result".toList,
                         "validated_at".toList]
  let rows := (sortByRow records).map fun r =>
    (cols.map fun c =>
      if c = emailCol then r.email
      else ((r.additional_data.getD []).lookup c).getD []) ++
    [statusName r.validation_status, statusName r.validation_status,
     (r.validated_at.map Nat.repr).getD "" |>.data]
  encodeRows (header :: rows)

/-- Modelled from the spec: the repository's `download_validated_csv.ts`
under `src/` holds only a placeholder handler; the real
`downloadValidatedCsv` is absent from `src/` (its tests and its tRPC caller
remain).  Per spec §4.5 it fails with `NotFound` when the upload is
missing, with `NoRecords` when the upload has zero EmailRecords, and
otherwise succeeds with the reconstructed CSV, a generated filename and a
fixed MIME type. -/
def downloadValidatedCsv (now id : Nat) (db : DB) : Except DlErr DlResp :=
  match db.uploads.find? (fun u => u.id == id) with
  | none => .error .notFound
  | some u =>
    let records := db.records.filter (fun r => r.upload_id == id)
    if records.isEmpty then .error .noRecords
    else
      .ok { filename := (u.filename ++ "_validated_".data) ++ (Nat.repr now).data ++ ".csv".data
            content := downloadBody ((u.email_column).getD []) records
            mime := "text/csv".data }

/-- The column-resolution rule exactly as the specification words it, for
comparison with the code's resolution (claim C2): a supplied hint must match
verbatim or the resolution fails; otherwise the headers are scanned
case-insensitively first for one containing "email", only then for one
containing "mail", and finally the first header is used. -/
def specResolveColumn (headers : List (List Char))
    (hint : Option (List Char)) : Except UploadErr (List Char) :=
  match hint with
  | some h => if h ∈ headers then .ok h else .error .columnNotFound
  | none =>
    match headers.find? (fun h => containsSub "email".toList (lowerStr h)) with
    | some h => .ok h
    | none =>
      match headers.find? (fun h => containsSub "mail".toList (lowerStr h)) with
      | some h => .ok h
      | none => .ok (headers.headD [])

/-- Searching a mapped list finds the mapped hit when the map preserves the
predicate. -/
theorem find?_map_pres {α : Type} (p : α → Bool) (g : α → α)
    (hp : ∀ a, p (g a) = p a) :
    ∀ l : List α, (l.map g).find? p = (l.find? p).map g := by
  intro l
  induction l with
  | nil => rfl
  | cons a l ih =>
    by_cases h : p a = true
    · simp [List.find?, hp, h]
    · have h' : p a = false := by simpa using h
      simp [List.find?, hp, h', ih]

/-- The status flip of `setUploadStatus` as seen through `find?`. -/
theorem find?_setUploadStatus (db : DB) (id : Nat) (st : UStatus)
    (doneAt : Option Nat) (u : Upload)
    (h : db.uploads.find? (fun v => v.id == id) = some u) :
    (setUploadStatus db id st doneAt).uploads.find? (fun v => v.id == id) =
      some { u with status := st,
                    completed_at := match doneAt with
                                    | some t => some t
                                    | none => u.completed_at } := by
  have hid := List.find?_some h
  have := find?_map_pres (fun v : Upload => v.id == id)
    (fun v => if v.id = id then
        { v with status := st,
                 completed_at := match doneAt with
                                 | some t => some t
                                 | none => v.completed_at }
      else v)
    (by intro a; by_cases ha : a.id = id <;> simp [ha]) db.uploads
  simp only [setUploadStatus, this, h, Option.map_some']
  have hid' : u.id = id := by simpa using hid
  simp [hid']

/-- Claim C4: `validateEmails` fails with `NotFound` when the upload does
not exist, `AlreadyProcessing` when its status is processing,
`AlreadyCompleted` when completed, `UnrecoverableState` when failed; in all
four cases the store is returned untouched (no Upload and no EmailRecord is
mutated). -/
theorem validateEmails_start_guards (now id : Nat) (db : DB) :
    (db.uploads.find? (fun u => u.id == id) = none →
      validateEmails now id db = (db, .error .notFound)) ∧
    (∀ u, db.uploads.find? (fun v => v.id == id) = some u →
      (u.status = .processing →
        validateEmails now id db = (db, .error .alreadyProcessing)) ∧
      (u.status = .completed →
        validateEmails now id db = (db, .error .alreadyCompleted)) ∧
      (u.status = .failed →
        validateEmails now id db = (db, .error .unrecoverableState))) := by
  constructor
  · intro h
    simp [validateEmails, h]
  · intro u hu
    refine ⟨?_, ?_, ?_⟩ <;> intro hs <;> simp [validateEmails, hu, hs]

/-- Witness for C4: the four guard failures observed on concrete stores. -/
theorem validateEmails_start_guards_witness :
    validateEmails 7 5 ⟨[], []⟩ = (⟨[], []⟩, .error .notFound) ∧
    validateEmails 7 5 ⟨[⟨5, [], 0, none, .processing, none⟩], []⟩ =
      (⟨[⟨5, [], 0, none, .processing, none⟩], []⟩, .error .alreadyProcessing) ∧
    validateEmails 7 5 ⟨[⟨5, [], 0, none, .completed, none⟩], []⟩ =
      (⟨[⟨5, [], 0, none, .completed, none⟩], []⟩, .error .alreadyCompleted) ∧
    validateEmails 7 5 ⟨[⟨5, [], 0, none, .failed, none⟩], []⟩ =
      (⟨[⟨5, [], 0, none, .failed, none⟩], []⟩, .error .unrecoverableState) := by
  refine ⟨?_, ?_, ?_, ?_⟩
  · exact (validateEmails_start_guards 7 5 ⟨[], []⟩).1 (by decide)
  · exact ((validateEmails_start_guards 7 5 _).2
      ⟨5, [], 0, none, .processing, none⟩ (by decide)).1 rfl
  · exact ((validateEmails_start_guards 7 5 _).2
      ⟨5, [], 0, none, .completed, none⟩ (by decide)).2.1 rfl
  · exact ((validateEmails_start_guards 7 5 _).2
      ⟨5, [], 0, none, .failed, none⟩ (by decide)).2.2 rfl

/-- Claim C5: the classifier's verdict for one email string: no `@` gives
`invalid`; else a "disposable" or "temp" substring gives `disposable`; else
a "catch_all" substring gives `catch_all`; otherwise `ok`. -/
theorem classify_policy (e : List Char) :
    (¬ "@".toList <:+: e → classify e = .invalid) ∧
    ("@".toList <:+: e →
      ("disposable".toList <:+: e ∨ "temp".toList <:+: e) →
      classify e = .disposable) ∧
    ("@".toList <:+: e →
      ¬ ("disposable".toList <:+: e ∨ "temp".toList <:+: e) →
      "catch_all".toList <:+: e → classify e = .catch_all) ∧
    ("@".toList <:+: e →
      ¬ ("disposable".toList <:+: e ∨ "temp".toList <:+: e) →
      ¬ "catch_all".toList <:+: e → classify e = .ok) := by
  refine ⟨?_, ?_, ?_, ?_⟩ <;>
    simp only [classify, containsSub] <;> intros <;> simp_all

/-- Witness for C5: the four sample emails of the spec's classifier policy. -/
theorem classify_policy_witness :
    classify "no-at-symbol".toList = .invalid ∧
    classify "disposable@temp.com".toList = .disposable ∧
    classify "x@catch_all.com".toList = .catch_all ∧
    classify "ok@example.com".toList = .ok := by
  refine ⟨?_, ?_, ?_, ?_⟩
  · exact (classify_policy "no-at-symbol".toList).1 (by decide)
  · exact (classify_policy "disposable@temp.com".toList).2.1 (by decide)
      (by decide)
  · exact (classify_policy "x@catch_all.com".toList).2.2.1 (by decide)
      (by decide) (by decide)
  · exact (classify_policy "ok@example.com".toList).2.2.2 (by decide)
      (by decide) (by decide)

/-- Claim C6: on an upload with zero EmailRecords whose status permits
starting, `validateEmails` returns synchronously with no background job
scheduled, leaves the upload `completed` with `completed_at` set, and the
acknowledgement mentions "No email records". -/
theorem validateEmails_zero_records (now id : Nat) (db : DB) (u : Upload)
    (hu : db.uploads.find? (fun v => v.id == id) = some u)
    (hs : u.status = .uploaded)
    (hr : db.records.filter (fun r => r.upload_id == id) = []) :
    (validateEmails now id db).2 = .ok (noRecordsMsg id, none) ∧
    "No email records".data <:+: noRecordsMsg id ∧
    (validateEmails now id db).1.uploads.find? (fun v => v.id == id) =
      some { u with status := .completed, completed_at := some now } := by
  have hstep :
      validateEmails now id db =
        (setUploadStatus (setUploadStatus db id .processing none) id
          .completed (some now), .ok (noRecordsMsg id, none)) := by
    simp only [validateEmails, hu, hs]
    have hrecs :
        (setUploadStatus db id .processing none).records.filter
          (fun r => r.upload_id == id) = [] := by
      simpa [setUploadStatus] using hr
    simp [hrecs]
  refine ⟨by rw [hstep], ?_, ?_⟩
  · have hsplit : "No email records found for upload ".data =
        "No email records".data ++ " found for upload ".data := by decide
    exact ⟨[], " found for upload ".data ++
      ((Nat.repr id).data ++ ". Upload marked as completed.".data),
      by simp [noRecordsMsg, hsplit]⟩
  · rw [hstep]
    have h1 := find?_setUploadStatus db id .processing none u hu
    have h2 := find?_setUploadStatus (setUploadStatus db id .processing none)
      id .completed (some now) _ h1
    simpa using h2

/-- Witness for C6: a one-upload store with no records completes at once. -/
theorem validateEmails_zero_records_witness :
    (validateEmails 9 1 ⟨[⟨1, ['f'], 0, none, .uploaded, none⟩], []⟩).2 =
      .ok (noRecordsMsg 1, none) ∧
    "No email records".data <:+: noRecordsMsg 1 ∧
    (validateEmails 9 1 ⟨[⟨1, ['f'], 0, none, .uploaded, none⟩], []⟩).1.uploads.find?
        (fun v => v.id == 1) =
      some ⟨1, ['f'], 0, none, .completed, some 9⟩ := by
  exact validateEmails_zero_records 9 1
    ⟨[⟨1, ['f'], 0, none, .uploaded, none⟩], []⟩
    ⟨1, ['f'], 0, none, .uploaded, none⟩ (by decide) rfl rfl

/-- The seven per-status counts of a record list sum to the count of
records whose status is set. -/
theorem countP_status_sum (l : List Rec) :
    l.countP (fun r => r.validation_status.isSome) =
      l.countP (fun r => r.validation_status == some .ok) +
      l.countP (fun r => r.validation_status == some .invalid) +
      l.countP (fun r => r.validation_status == some .disposable) +
      l.countP (fun r => r.validation_status == some .catch_all) +
      l.countP (fun r => r.validation_status == some .unknown) +
      l.countP (fun r => r.validation_status == some .error) +
      l.countP (fun r => r.validation_status == some .duplicate) := by
  induction l with
  | nil => rfl
  | cons r l ih =>
    rcases hst : r.validation_status with _ | s
    · simp [List.countP_cons, hst, ih]
    · cases s <;> simp [List.countP_cons, hst, ih] <;> omega

/-- Claim C7: for an existing upload `getUploadResults` reports
`total` = number of its EmailRecords, `validated` = number with a non-null
status, and `validated` equals the sum of the seven per-status counts. -/
theorem getUploadResults_summary_counts (id : Nat) (db : DB)
    (out : ResultsView) (h : getUploadResults id db = .ok out) :
    out.summary.total =
      (db.records.filter (fun r => r.upload_id == id)).length ∧
    out.summary.validated =
      (db.records.filter (fun r => r.upload_id == id)).countP
        (fun r => r.validation_status.isSome) ∧
    out.summary.validated =
      out.summary.ok + out.summary.invalid + out.summary.disposable +
      out.summary.catch_all + out.summary.unknown + out.summary.error +
      out.summary.duplicate := by
  unfold getUploadResults at h
  cases hf : db.uploads.find? (fun u => u.id == id) with
  | none => rw [hf] at h; exact absurd h (by simp)
  | some u =>
    rw [hf] at h
    simp only [Except.ok.injEq] at h
    subst h
    exact ⟨rfl, rfl, countP_status_sum _⟩

/-- Witness for C7: the summary of a concrete two-record store. -/
theorem getUploadResults_summary_counts_witness :
    ∃ out, getUploadResults 1
      ⟨[⟨1, ['f'], 2, none, .completed, some 3⟩],
       [⟨10, 1, 1, ['a', '@', 'b'], some .ok, some 3, none⟩,
        ⟨11, 1, 2, ['c'], none, none, none⟩]⟩ = .ok out ∧
      out.summary.total = 2 ∧ out.summary.validated = 1 ∧
      out.summary.validated =
        out.summary.ok + out.summary.invalid + out.summary.disposable +
        out.summary.catch_all + out.summary.unknown + out.summary.error +
        out.summary.duplicate := by
  have h := getUploadResults_summary_counts 1
    ⟨[⟨1, ['f'], 2, none, .completed, some 3⟩],
     [⟨10, 1, 1, ['a', '@', 'b'], some .ok, some 3, none⟩,
      ⟨11, 1, 2, ['c'], none, none, none⟩]⟩ _ rfl
  exact ⟨_, rfl, h.1, h.2.1, h.2.2⟩

/-- Claim C8: `downloadValidatedCsv` fails with `NotFound` exactly when the
upload is missing, fails with `NoRecords` when the upload exists but has
zero EmailRecords, and succeeds in every other case. -/
theorem downloadValidatedCsv_failure_modes (now id : Nat) (db : DB) :
    (db.uploads.find? (fun u => u.id == id) = none →
      downloadValidatedCsv now id db = .error .notFound) ∧
    (∀ u, db.uploads.find? (fun v => v.id == id) = some u →
      (db.records.filter (fun r => r.upload_id == id) = [] →
        downloadValidatedCsv now id db = .error .noRecords) ∧
      (db.records.filter (fun r => r.upload_id == id) ≠ [] →
        ∃ resp, downloadValidatedCsv now id db = .ok resp)) := by
  constructor
  · intro h; simp [downloadValidatedCsv, h]
  · intro u hu
    constructor
    · intro hr; simp [downloadValidatedCsv, hu, hr]
    · intro hr
      simp only [downloadValidatedCsv, hu]
      rw [if_neg (by simpa [List.isEmpty_iff] using hr)]
      exact ⟨_, rfl⟩

/-- Witness for C8: the three outcomes on concrete stores. -/
theorem downloadValidatedCsv_failure_modes_witness :
    downloadValidatedCsv 4 9 ⟨[], []⟩ = .error .notFound ∧
    downloadValidatedCsv 4 1 ⟨[⟨1, ['f'], 0, none, .completed, some 3⟩], []⟩ =
      .error .noRecords ∧
    ∃ resp, downloadValidatedCsv 4 1
      ⟨[⟨1, ['f'], 1, some ['e'], .completed, some 3⟩],
       [⟨10, 1, 1, ['a', '@', 'b'], some .ok, some 3, none⟩]⟩ = .ok resp := by
  refine ⟨?_, ?_, ?_⟩
  · exact (downloadValidatedCsv_failure_modes 4 9 ⟨[], []⟩).1 (by decide)
  · exact ((downloadValidatedCsv_failure_modes 4 1 _).2
      ⟨1, ['f'], 0, none, .completed, some 3⟩ (by decide)).1 rfl
  · exact ((downloadValidatedCsv_failure_modes 4 1 _).2
      ⟨1, ['f'], 1, some ['e'], .completed, some 3⟩ (by decide)).2
      (by decide)

/-- Anatomy of a record emitted by the `uploadCsv` row loop: it comes from
a non-blank data line and carries that line's 1-based index. -/
theorem mem_uploadRecords (lines headers : List (List Char))
    (emailIdx : Nat) (r : UploadRow)
    (h : r ∈ uploadRecords lines headers emailIdx) :
    1 ≤ r.row_number ∧ r.row_number < 1 + (lines.length - 1) ∧
    blankRow (parseCSVRow (lines.getD r.row_number [])) = false ∧
    r = mkUploadRow headers emailIdx r.row_number
      (parseCSVRow (lines.getD r.row_number [])) := by
  unfold uploadRecords at h
  rcases List.mem_filterMap.1 h with ⟨i, hi, hf⟩
  rcases List.mem_range'_1.1 hi with ⟨h1, h2⟩
  dsimp only at hf
  split at hf
  · exact absurd hf (by simp)
  · next hb =>
    have hb' : blankRow (parseCSVRow (lines.getD i [])) = false := by
      simpa using hb
    have hr : r = mkUploadRow headers emailIdx i
        (parseCSVRow (lines.getD i [])) := by
      have := Option.some.inj hf
      exact this.symm
    have hrow : r.row_number = i := by rw [hr]; rfl
    rw [hrow]
    exact ⟨h1, h2, hb', hr⟩

/-- Claim C1 (amended): blank data rows produce no EmailRecord and the
`total_rows` returned by `uploadCsv` equals the count of emitted records,
but the `total_rows` stored on the persisted Upload equals the number of
data lines including blank ones (line count minus the header). -/
theorem uploadCsv_totals (content : List Char) (hint : Option (List Char))
    (out : UploadOutcome) (h : uploadCsv content hint = .ok out) :
    out.responseTotalRows = out.records.length ∧
    out.uploadTotalRows = (csvLines content).length - 1 ∧
    (∀ i, blankRow (parseCSVRow ((csvLines content).getD i [])) = true →
      ∀ r ∈ out.records, r.row_number ≠ i) := by
  unfold uploadCsv at h
  split at h
  · exact absurd h (by simp)
  · split at h
    · exact absurd h (by simp)
    · split at h
      · simp only [Except.ok.injEq] at h
        subst h
        refine ⟨rfl, rfl, ?_⟩
        intro i hblank r hr hri
        have := (mem_uploadRecords _ _ _ r hr).2.2.1
        rw [hri] at this
        rw [hblank] at this
        exact absurd this (by simp)
      · exact absurd h (by simp)

/-- Witness for C1 (amended): a concrete upload with one blank row. -/
theorem uploadCsv_totals_witness :
    ∃ out, uploadCsv "email\na@b\n,,\nc@d".toList none = .ok out ∧
      out.responseTotalRows = out.records.length ∧
      out.uploadTotalRows = (csvLines "email\na@b\n,,\nc@d".toList).length - 1 ∧
      (∀ r ∈ out.records, r.row_number ≠ 2) := by
  have h := uploadCsv_totals "email\na@b\n,,\nc@d".toList none _ rfl
  exact ⟨_, rfl, h.1, h.2.1, h.2.2 2 (by decide)⟩

/-- Counterexample for C1 as stated: with one blank row the persisted
`total_rows` (3: data lines including the blank `,,`) differs from the
count of emitted EmailRecords (2), which is what the response returns. -/
theorem uploadCsv_totals_counterexample :
    uploadCsv "email\na@b\n,,\nc@d".toList none =
      .ok { uploadTotalRows := 3
            uploadFileSize := 16
            emailColumn := "email".toList
            detectedColumns := ["email".toList]
            records := [⟨1, "a@b".toList, []⟩, ⟨3, "c@d".toList, []⟩]
            responseTotalRows := 2 } ∧ (3 : Nat) ≠ 2 := by
  exact ⟨rfl, by decide⟩

/-- The field scanner always emits at least one field. -/
theorem parseFields_ne_nil (l : List Char) (inQ : Bool) (cur : List Char) :
    parseFields l inQ cur ≠ [] := by
  induction l, inQ, cur using parseFields.induct <;>
    simp [parseFields] <;> assumption

/-- Parsing a row always returns at least one field, so the header list of
`uploadCsv` is never empty. -/
theorem parseCSVRow_ne_nil (row : List Char) : parseCSVRow row ≠ [] := by
  unfold parseCSVRow
  simpa using parseFields_ne_nil row false []

/-- The auto-detected column is always one of the headers. -/
theorem autoDetect_mem (headers : List (List Char)) (h : headers ≠ []) :
    autoDetect headers ∈ headers := by
  unfold autoDetect
  cases hf : headers.find? (fun h =>
      containsSub "email".toList (lowerStr h) ||
      containsSub "mail".toList (lowerStr h)) with
  | none =>
    cases headers with
    | nil => exact absurd rfl h
    | cons a l => exact List.mem_cons_self a l
  | some m => exact List.mem_of_find?_eq_some hf

/-- Claim C2 (amended): `uploadCsv` resolves the email column as follows:
a supplied non-empty hint is used verbatim when it occurs in the headers
and otherwise the upload fails with the column-not-found error; with no
hint (or an empty one) the headers are scanned case-insensitively in a
single pass for the first header containing "email" or "mail" — "email" is
not preferred over "mail", the earliest header containing either substring
wins — and if none matches the first header is used. -/
theorem uploadCsv_column_resolution (content : List Char)
    (hint : Option (List Char))
    (hlen : 2 ≤ (csvLines content).length) :
    (∀ hh, hint = some hh → hh ≠ [] →
      hh ∈ parseCSVRow ((csvLines content).getD 0 []) →
      ∃ out, uploadCsv content hint = .ok out ∧ out.emailColumn = hh) ∧
    (∀ hh, hint = some hh → hh ≠ [] →
      hh ∉ parseCSVRow ((csvLines content).getD 0 []) →
      uploadCsv content hint = .error .columnNotFound) ∧
    ((hint = none ∨ hint = some []) →
      ∃ out, uploadCsv content hint = .ok out ∧
        out.emailColumn =
          autoDetect (parseCSVRow ((csvLines content).getD 0 [])) ∧
        (∀ m, (parseCSVRow ((csvLines content).getD 0 [])).find?
            (fun h => containsSub "email".toList (lowerStr h) ||
                      containsSub "mail".toList (lowerStr h)) = some m →
          out.emailColumn = m) ∧
        ((parseCSVRow ((csvLines content).getD 0 [])).find?
            (fun h => containsSub "email".toList (lowerStr h) ||
                      containsSub "mail".toList (lowerStr h)) = none →
          out.emailColumn =
            (parseCSVRow ((csvLines content).getD 0 [])).headD [])) := by
  have hH := parseCSVRow_ne_nil ((csvLines content).getD 0 [])
  have hlt : ¬ ((csvLines content).length < 2) := Nat.not_lt.2 hlen
  have hlen0 : ¬ ((parseCSVRow ((csvLines content).getD 0 [])).length = 0) := by
    simpa [List.length_eq_zero] using hH
  refine ⟨?_, ?_, ?_⟩
  · intro hh hhint hne hmem
    subst hhint
    have hres : resolveEmailColumn
        (parseCSVRow ((csvLines content).getD 0 [])) (some hh) = hh := by
      simp [resolveEmailColumn, hne]
    refine ⟨uploadOutcomeOf content (some hh), ?_, ?_⟩
    · unfold uploadCsv
      rw [if_neg hlt, if_neg hlen0, hres, if_pos hmem]
    · simp only [uploadOutcomeOf]
      exact hres
  · intro hh hhint hne hmem
    subst hhint
    have hres : resolveEmailColumn
        (parseCSVRow ((csvLines content).getD 0 [])) (some hh) = hh := by
      simp [resolveEmailColumn, hne]
    unfold uploadCsv
    rw [if_neg hlt, if_neg hlen0, hres, if_neg hmem]
  · intro hhint
    have hres : resolveEmailColumn
        (parseCSVRow ((csvLines content).getD 0 [])) hint =
        autoDetect (parseCSVRow ((csvLines content).getD 0 [])) := by
      rcases hhint with h | h <;> subst h <;> simp [resolveEmailColumn]
    have hmem := autoDetect_mem _ hH
    refine ⟨uploadOutcomeOf content hint, ?_, ?_, ?_, ?_⟩
    · unfold uploadCsv
      rw [if_neg hlt, if_neg hlen0, hres, if_pos hmem]
    · simp only [uploadOutcomeOf]
      exact hres
    · intro m hm
      simp only [uploadOutcomeOf]
      rw [hres]
      unfold autoDetect
      rw [hm]
    · intro hm
      simp only [uploadOutcomeOf]
      rw [hres]
      unfold autoDetect
      rw [hm]

/-- Witness for C2 (amended): the three resolution modes on the spec's own
examples (`age` hint, `bogus` hint, and auto-detection of `email`). -/
theorem uploadCsv_column_resolution_witness :
    (∃ out, uploadCsv "name,email,age\na,b,c".toList
        (some "age".toList) = .ok out ∧ out.emailColumn = "age".toList) ∧
    uploadCsv "name,email,age\na,b,c".toList (some "bogus".toList) =
      .error .columnNotFound ∧
    (∃ out, uploadCsv "name,email,age\na,b,c".toList none = .ok out ∧
      out.emailColumn = "email".toList) := by
  refine ⟨?_, ?_, ?_⟩
  · exact (uploadCsv_column_resolution "name,email,age\na,b,c".toList
      (some "age".toList) (by decide)).1 "age".toList rfl (by decide)
      (by decide)
  · exact (uploadCsv_column_resolution "name,email,age\na,b,c".toList
      (some "bogus".toList) (by decide)).2.1 "bogus".toList rfl (by decide)
      (by decide)
  · rcases (uploadCsv_column_resolution "name,email,age\na,b,c".toList
      none (by decide)).2.2 (Or.inl rfl) with ⟨out, hout, _, hfind, _⟩
    exact ⟨out, hout, hfind "email".toList (by decide)⟩

/-- Counterexample for C2 as stated: with headers `mailing,email` and no
hint the code picks `mailing` (single-pass "email"-or-"mail" scan), while
the claimed two-pass order (`email` before `mail`) picks `email`. -/
theorem uploadCsv_column_resolution_counterexample :
    uploadCsv "mailing,email\na,b".toList none =
      .ok { uploadTotalRows := 1
            uploadFileSize := 17
            emailColumn := "mailing".toList
            detectedColumns := ["mailing".toList, "email".toList]
            records := [⟨1, "a".toList, [("email".toList, "b".toList)]⟩]
            responseTotalRows := 1 } ∧
    specResolveColumn ["mailing".toList, "email".toList] none =
      .ok "email".toList ∧
    "mailing".toList ≠ "email".toList := by
  exact ⟨rfl, rfl, by decide⟩

/-- Inside quotes the scanner accumulates every quote-free character,
comma and anything else alike. -/
theorem parseFields_consume_quoted (a : List Char) :
    ∀ rest cur, '"' ∉ a →
      parseFields (a ++ rest) true cur =
        parseFields rest true (a.reverse ++ cur) := by
  induction a with
  | nil => intro rest cur _; simp
  | cons c a ih =>
    intro rest cur h
    have hc : c ≠ '"' := fun hq => h (hq ▸ List.mem_cons_self c a)
    have ha : '"' ∉ a := fun hm => h (List.mem_cons_of_mem c hm)
    rw [List.cons_append,
      parseFields.eq_6 true cur c (a ++ rest)
        (fun _ hq _ _ => absurd hq hc)
        (fun hq _ => absurd hq hc)
        (fun hq _ => absurd hq hc)
        (fun _ hf => by exact absurd hf (by simp)),
      ih rest (c :: cur) ha]
    simp

/-- A field wrapped in quotes keeps its commas: the whole quote-free body
(commas included) becomes one field. -/
theorem parseCSVRow_quoted (s : List Char) (hs : '"' ∉ s) :
    parseCSVRow ('"' :: (s ++ ['"'])) = [jsTrim s] := by
  unfold parseCSVRow
  rw [parseFields.eq_4, parseFields_consume_quoted s ['"'] [] hs,
    parseFields.eq_3 _ _ (fun _ h => by simp at h)]
  simp [parseFields]

/-- A doubled quote inside a quoted field decodes to one literal quote. -/
theorem parseCSVRow_escaped_quote (a b : List Char)
    (ha : '"' ∉ a) (hb : '"' ∉ b) :
    parseCSVRow ('"' :: (a ++ '"' :: '"' :: (b ++ ['"']))) =
      [jsTrim (a ++ '"' :: b)] := by
  unfold parseCSVRow
  rw [parseFields.eq_4,
    parseFields_consume_quoted a ('"' :: '"' :: (b ++ ['"'])) [] ha,
    List.append_nil, parseFields.eq_2,
    parseFields_consume_quoted b ['"'] ('"' :: a.reverse) hb,
    parseFields.eq_3 _ _ (fun _ h => by simp at h)]
  simp [parseFields]

/-- Every character of every field emitted by the scanner comes from the
scanned line or from the seed accumulator. -/
theorem mem_parseFields (l : List Char) (inQ : Bool) (cur : List Char) :
    ∀ f c, f ∈ parseFields l inQ cur → c ∈ f → c ∈ l ∨ c ∈ cur := by
  induction l, inQ, cur using parseFields.induct with
  | case1 x cur =>
    intro f c hf hc
    rw [parseFields.eq_1] at hf
    simp only [List.mem_singleton] at hf
    subst hf
    right; simpa using hc
  | case2 rest cur ih =>
    intro f c hf hc
    rw [parseFields.eq_2] at hf
    rcases ih f c hf hc with h | h
    · left; exact List.mem_cons_of_mem _ (List.mem_cons_of_mem _ h)
    · rcases List.mem_cons.1 h with h | h
      · left; simp [h]
      · right; exact h
  | case3 rest cur hg ih =>
    intro f c hf hc
    rw [parseFields.eq_3 _ _ hg] at hf
    rcases ih f c hf hc with h | h
    · left; exact List.mem_cons_of_mem _ h
    · right; exact h
  | case4 rest cur ih =>
    intro f c hf hc
    rw [parseFields.eq_4] at hf
    rcases ih f c hf hc with h | h
    · left; exact List.mem_cons_of_mem _ h
    · right; exact h
  | case5 rest cur ih =>
    intro f c hf hc
    rw [parseFields.eq_5] at hf
    rcases List.mem_cons.1 hf with h | h
    · subst h; right; simpa using hc
    · rcases ih f c h hc with h' | h'
      · left; exact List.mem_cons_of_mem _ h'
      · simp at h'
  | case6 c' rest inQ cur g1 g2 g3 g4 ih =>
    intro f c hf hc
    rw [parseFields.eq_6 _ _ _ _ g1 g2 g3 g4] at hf
    rcases ih f c hf hc with h | h
    · left; exact List.mem_cons_of_mem _ h
    · rcases List.mem_cons.1 h with h | h
      · left; simp [h]
      · right; exact h

/-- Every character of every segment of `splitAux` comes from the scanned
text (and is not a newline) or from the seed accumulator. -/
theorem mem_splitAux (l : List Char) :
    ∀ acc part c, part ∈ splitAux l acc → c ∈ part →
      (c ∈ l ∧ c ≠ '\n') ∨ c ∈ acc := by
  induction l with
  | nil =>
    intro acc part c hp hc
    simp only [splitAux, List.mem_singleton] at hp
    subst hp
    right; simpa using hc
  | cons a l ih =>
    intro acc part c hp hc
    by_cases ha : a = '\n'
    · subst ha
      simp only [splitAux, if_pos] at hp
      rcases List.mem_cons.1 hp with hp | hp
      · subst hp; right; simpa using hc
      · rcases ih [] part c hp hc with ⟨h1, h2⟩ | h
        · exact Or.inl ⟨List.mem_cons_of_mem _ h1, h2⟩
        · simp at h
    · rw [splitAux, if_neg ha] at hp
      rcases ih (a :: acc) part c hp hc with ⟨h1, h2⟩ | h
      · exact Or.inl ⟨List.mem_cons_of_mem _ h1, h2⟩
      · rcases List.mem_cons.1 h with h | h
        · subst h; exact Or.inl ⟨List.mem_cons_self _ _, ha⟩
        · right; exact h

/-- Trimming only removes characters. -/
theorem jsTrim_sublist (l : List Char) : List.Sublist (jsTrim l) l := by
  unfold jsTrim
  have h1 : (l.dropWhile isJsSpace).Sublist l := List.dropWhile_sublist _
  have h2 := @List.dropWhile_sublist Char ((l.dropWhile isJsSpace).reverse)
    isJsSpace
  have h3 := h2.reverse
  rw [List.reverse_reverse] at h3
  exact h3.trans h1

/-- No decoded field ever contains a newline: the buffer is cut at every
newline before quote-parsing runs. -/
theorem csvDecode_no_newline (content : List Char) :
    ∀ row ∈ csvDecode content, ∀ f ∈ row, '\n' ∉ f := by
  intro row hrow f hf hc
  rcases List.mem_map.1 hrow with ⟨line, hline, rfl⟩
  rcases List.mem_map.1 hf with ⟨f0, hf0, rfl⟩
  have hc0 : '\n' ∈ f0 := (jsTrim_sublist f0).subset hc
  have hl : '\n' ∈ line ∨ ('\n' : Char) ∈ ([] : List Char) :=
    mem_parseFields line false [] f0 '\n' hf0 hc0
  have hline' : '\n' ∈ line := by
    rcases hl with h | h
    · exact h
    · simp at h
  rcases mem_splitAux (jsTrim content) [] line '\n' hline hline' with ⟨_, h2⟩ | h
  · exact h2 rfl
  · simp at h

/-- Claim C3 (amended): within one line the decoder honours quoting — a
quote-wrapped field keeps its literal commas as field content, and a
doubled quote inside a quoted field decodes to one literal quote — but a
field can never contain a literal newline: the buffer is split at every
newline before quote-parsing runs, so a quoted newline breaks the field
across two rows. -/
theorem csv_quoting (s a b : List Char) (hs : '"' ∉ s) (ha : '"' ∉ a)
    (hb : '"' ∉ b) :
    parseCSVRow ('"' :: (s ++ ['"'])) = [jsTrim s] ∧
    parseCSVRow ('"' :: (a ++ '"' :: '"' :: (b ++ ['"']))) =
      [jsTrim (a ++ '"' :: b)] ∧
    ∀ content, ∀ row ∈ csvDecode content, ∀ f ∈ row, '\n' ∉ f :=
  ⟨parseCSVRow_quoted s hs, parseCSVRow_escaped_quote a b ha hb,
    fun content => csvDecode_no_newline content⟩

/-- Witness for C3 (amended): a comma survives inside quotes and a doubled
quote decodes to a literal quote on concrete fields. -/
theorem csv_quoting_witness :
    parseCSVRow "\"x,y\"".toList = ["x,y".toList] ∧
    parseCSVRow "\"a\"\"b\"".toList = ["a\"b".toList] := by
  have h := csv_quoting "x,y".toList "a".toList "b".toList
    (by decide) (by decide) (by decide)
  have e1 : "\"x,y\"".toList = '"' :: ("x,y".toList ++ ['"']) := by decide
  have e2 : "\"a\"\"b\"".toList =
      '"' :: ("a".toList ++ '"' :: '"' :: ("b".toList ++ ['"'])) := by decide
  constructor
  · rw [e1, h.1]; decide
  · rw [e2, h.2.1]; decide

/-- Counterexample for C3 as stated: the buffer `email\n"x,\ny"` holds one
RFC4180 data row whose quoted field contains a newline, but the decoder
returns three one-field rows — the quoted field does not keep its newline. -/
theorem csv_quoted_newline_counterexample :
    csvDecode "email\n\"x,\ny\"".toList =
      [["email".toList], ["x,".toList], ["y".toList]] ∧
    csvDecode "email\n\"x,\ny\"".toList ≠
      [["email".toList], ["x,\ny".toList]] := by
  exact ⟨rfl, by decide⟩

/-- Splitting never yields an empty list of segments. -/
theorem splitAux_ne_nil (l : List Char) : ∀ acc, splitAux l acc ≠ [] := by
  induction l with
  | nil => intro acc; simp [splitAux]
  | cons a l ih =>
    intro acc
    by_cases ha : a = '\n' <;> simp [splitAux, ha, ih]

/-- The first element surviving `dropWhile` fails the predicate. -/
theorem head?_dropWhile_not (p : Char → Bool) (xs : List Char) :
    ∀ c, (xs.dropWhile p).head? = some c → p c = false := by
  induction xs with
  | nil => intro c h; simp [List.dropWhile] at h
  | cons a xs ih =>
    intro c h
    by_cases hp : p a
    · rw [List.dropWhile_cons_of_pos hp] at h
      exact ih c h
    · rw [List.dropWhile_cons_of_neg hp] at h
      simp only [List.head?_cons, Option.some.injEq] at h
      subst h
      simpa using hp

/-- Dropping a prefix keeps the last element when the result is nonempty. -/
theorem getLast?_dropWhile (p : Char → Bool) (xs : List Char) :
    xs.dropWhile p ≠ [] → (xs.dropWhile p).getLast? = xs.getLast? := by
  induction xs with
  | nil => intro h; simp [List.dropWhile] at h
  | cons a xs ih =>
    intro h
    by_cases hp : p a
    · rw [List.dropWhile_cons_of_pos hp] at h ⊢
      cases xs with
      | nil => simp [List.dropWhile] at h
      | cons b xs' =>
        rw [List.getLast?_cons_cons]
        exact ih h
    · rw [List.dropWhile_cons_of_neg hp]

/-- A trimmed text starts with a non-whitespace character. -/
theorem jsTrim_head_not_space (l : List Char) :
    ∀ c, (jsTrim l).head? = some c → isJsSpace c = false := by
  intro c h
  unfold jsTrim at h
  rw [List.head?_reverse] at h
  have hne :
      List.dropWhile isJsSpace (List.dropWhile isJsSpace l).reverse ≠ [] := by
    intro he
    rw [he] at h
    simp at h
  rw [getLast?_dropWhile _ _ hne, List.getLast?_reverse] at h
  exact head?_dropWhile_not _ _ c h

/-- A trimmed text ends with a non-whitespace character. -/
theorem jsTrim_getLast_not_space (l : List Char) :
    ∀ c, (jsTrim l).getLast? = some c → isJsSpace c = false := by
  intro c h
  unfold jsTrim at h
  rw [List.getLast?_reverse] at h
  exact head?_dropWhile_not _ _ c h

/-- The first segment of `split` is the seed plus everything up to the
first newline. -/
theorem splitAux_eq_cons (l : List Char) :
    ∀ acc, ∃ t, splitAux l acc =
      (acc.reverse ++ l.takeWhile (fun c => !(c == '\n'))) :: t := by
  induction l with
  | nil => intro acc; exact ⟨[], by simp [splitAux]⟩
  | cons a l ih =>
    intro acc
    by_cases ha : a = '\n'
    · subst ha
      exact ⟨splitAux l [], by simp [splitAux]⟩
    · rcases ih (a :: acc) with ⟨t, ht⟩
      refine ⟨t, ?_⟩
      simp only [splitAux, if_neg ha, ht]
      rw [List.takeWhile_cons_of_pos (by simpa using ha)]
      simp

/-- When the text does not end in a newline, the last segment of `split`
is nonempty. -/
theorem splitAux_getLast_nonempty (l : List Char) :
    ∀ acc, l ≠ [] → l.getLast? ≠ some '\n' →
      ∃ p, (splitAux l acc).getLast? = some p ∧ p ≠ [] := by
  induction l with
  | nil => intro acc h _; exact absurd rfl h
  | cons a cs ih =>
    intro acc _ hlast
    cases cs with
    | nil =>
      have ha : ¬ (a = '\n') := by
        intro he
        exact hlast (by simp [he])
      refine ⟨acc.reverse ++ [a], ?_, by simp⟩
      simp [splitAux, ha]
    | cons b cs' =>
      have hlast' : (b :: cs').getLast? ≠ some '\n' := by
        rw [List.getLast?_cons_cons] at hlast
        exact hlast
      by_cases ha : a = '\n'
      · subst ha
        rcases ih [] (by simp) hlast' with ⟨p, hp, hpne⟩
        refine ⟨p, ?_, hpne⟩
        rcases List.exists_cons_of_ne_nil (splitAux_ne_nil (b :: cs') [])
          with ⟨x, t, hxt⟩
        have hstep : splitAux ('\n' :: b :: cs') acc =
            acc.reverse :: splitAux (b :: cs') [] := by
          rw [splitAux.eq_2, if_pos rfl]
        rw [hstep, hxt, List.getLast?_cons_cons, ← hxt]
        exact hp
      · rcases ih (a :: acc) (by simp) hlast' with ⟨p, hp, hpne⟩
        refine ⟨p, ?_, hpne⟩
        have hstep : splitAux (a :: b :: cs') acc =
            splitAux (b :: cs') (a :: acc) := by
          rw [splitAux.eq_2, if_neg ha]
        rw [hstep]
        exact hp

/-- With at least two trimmed lines, at least two of them are nonempty:
the first and the last line of the trimmed text never consist of
whitespace only. -/
theorem two_nonempty_lines (content : List Char)
    (hge : 2 ≤ (csvLines content).length) :
    2 ≤ ((csvLines content).filter (fun l => !l.isEmpty)).length := by
  by_cases hm : jsTrim content = []
  · have : csvLines content = [[]] := by
      unfold csvLines splitNL
      rw [hm]
      rfl
    rw [this] at hge
    simp at hge
  · rcases List.exists_cons_of_ne_nil hm with ⟨c0, m', hm'⟩
    have hc0 : isJsSpace c0 = false :=
      jsTrim_head_not_space content c0 (by rw [hm']; rfl)
    have hc0n : ¬ (c0 = '\n') := by
      intro he
      rw [he] at hc0
      simp [isJsSpace] at hc0
    have hlastsome : (jsTrim content).getLast?.isSome := by
      rw [hm']
      simp
    rcases Option.isSome_iff_exists.1 hlastsome with ⟨cL, hcL⟩
    have hcLs : isJsSpace cL = false := jsTrim_getLast_not_space content cL hcL
    have hlast_ne : (jsTrim content).getLast? ≠ some '\n' := by
      rw [hcL]
      intro he
      have : cL = '\n' := by injection he
      rw [this] at hcLs
      simp [isJsSpace] at hcLs
    rcases splitAux_eq_cons (jsTrim content) [] with ⟨t, hsplit⟩
    have hlines : csvLines content =
        ((jsTrim content).takeWhile (fun c => !(c == '\n'))) :: t := by
      unfold csvLines splitNL
      rw [hsplit]
      simp
    have hhd : (jsTrim content).takeWhile (fun c => !(c == '\n')) ≠ [] := by
      rw [hm', List.takeWhile_cons_of_pos (by simpa using hc0n)]
      simp
    rcases splitAux_getLast_nonempty (jsTrim content) [] hm hlast_ne
      with ⟨p, hp, hpne⟩
    have ht : t ≠ [] := by
      intro he
      rw [hlines, he] at hge
      simp at hge
    have hpt : p ∈ t := by
      have hgl : (splitAux (jsTrim content) []).getLast? = some p := hp
      rw [hsplit] at hgl
      rcases List.exists_cons_of_ne_nil ht with ⟨x, t', hxt⟩
      rw [hxt, List.getLast?_cons_cons, ← hxt] at hgl
      exact List.mem_of_mem_getLast? hgl
    have hfil : (csvLines content).filter (fun l => !l.isEmpty) =
        ((jsTrim content).takeWhile (fun c => !(c == '\n'))) ::
          (t.filter (fun l => !l.isEmpty)) := by
      rw [hlines,
        List.filter_cons_of_pos (by simpa [List.isEmpty_iff] using hhd)]
    have hmem : p ∈ t.filter (fun l => !l.isEmpty) :=
      List.mem_filter.2 ⟨hpt, by simpa [List.isEmpty_iff] using hpne⟩
    have hlen1 : 1 ≤ (t.filter (fun l => !l.isEmpty)).length := by
      rcases List.exists_cons_of_ne_nil
        (fun he => by rw [he] at hmem; simp at hmem : t.filter (fun l => !l.isEmpty) ≠ [])
        with ⟨x, t', hxt⟩
      rw [hxt]
      simp
    rw [hfil]
    simp only [List.length_cons]
    omega

/-- Claim C9: `uploadCsv` reports the malformed-input error exactly when
the buffer yields fewer than 2 non-empty lines (no header, or a header
with no data rows); with at least 2 non-empty lines this error cannot
occur, whatever the hint. -/
theorem uploadCsv_malformed_iff (content : List Char)
    (hint : Option (List Char)) :
    uploadCsv content hint = .error .malformedInput ↔
    ((csvLines content).filter (fun l => !l.isEmpty)).length < 2 := by
  constructor
  · intro h
    by_cases h2 : (csvLines content).length < 2
    · have := List.length_filter_le (fun l => !l.isEmpty) (csvLines content)
      omega
    · unfold uploadCsv at h
      rw [if_neg h2] at h
      split at h
      · exact absurd h (by simp)
      · split at h
        · exact absurd h (by simp)
        · exact absurd h (by simp)
  · intro h
    have h2 : (csvLines content).length < 2 := by
      by_contra hge
      push_neg at hge
      have := two_nonempty_lines content hge
      omega
    unfold uploadCsv
    rw [if_pos h2]

/-- Claim C10: short data rows are tolerated.  Success of `uploadCsv`
depends only on the line count, the header row and the hint — never on the
shape of a data row — and for every emitted record whose source row has
fewer fields than the headers: the stored email is `""` when the resolved
email-column index lies beyond the row's last field, and every non-email
header whose field is missing appears in `additional_data` with `""`. -/
theorem uploadCsv_short_rows (content : List Char)
    (hint : Option (List Char)) :
    ((∃ out, uploadCsv content hint = .ok out) ↔
      (2 ≤ (csvLines content).length ∧
        resolveEmailColumn (parseCSVRow ((csvLines content).getD 0 [])) hint
          ∈ parseCSVRow ((csvLines content).getD 0 []))) ∧
    (∀ out, uploadCsv content hint = .ok out → ∀ r ∈ out.records,
      ((parseCSVRow ((csvLines content).getD r.row_number [])).length ≤
          (parseCSVRow ((csvLines content).getD 0 [])).findIdx
            (· == out.emailColumn) →
        r.email = []) ∧
      (∀ idx hcol,
        (parseCSVRow ((csvLines content).getD 0 []))[idx]? = some hcol →
        idx ≠ (parseCSVRow ((csvLines content).getD 0 [])).findIdx
            (· == out.emailColumn) →
        (parseCSVRow ((csvLines content).getD r.row_number [])).length ≤
          idx →
        (hcol, []) ∈ r.additional_data)) := by
  have hH0 : ¬ ((parseCSVRow ((csvLines content).getD 0 [])).length = 0) := by
    simpa [List.length_eq_zero] using
      parseCSVRow_ne_nil ((csvLines content).getD 0 [])
  constructor
  · constructor
    · rintro ⟨out, hout⟩
      unfold uploadCsv at hout
      by_cases h2 : (csvLines content).length < 2
      · rw [if_pos h2] at hout
        exact absurd hout (by simp)
      · rw [if_neg h2, if_neg hH0] at hout
        by_cases hmem : resolveEmailColumn
            (parseCSVRow ((csvLines content).getD 0 [])) hint
            ∈ parseCSVRow ((csvLines content).getD 0 [])
        · exact ⟨Nat.not_lt.1 h2, hmem⟩
        · rw [if_neg hmem] at hout
          exact absurd hout (by simp)
    · rintro ⟨h2, hmem⟩
      refine ⟨uploadOutcomeOf content hint, ?_⟩
      unfold uploadCsv
      rw [if_neg (Nat.not_lt.2 h2), if_neg hH0, if_pos hmem]
  · intro out hout r hr
    have hout' : out = uploadOutcomeOf content hint := by
      unfold uploadCsv at hout
      by_cases h2 : (csvLines content).length < 2
      · rw [if_pos h2] at hout
        exact absurd hout (by simp)
      · rw [if_neg h2, if_neg hH0] at hout
        by_cases hmem : resolveEmailColumn
            (parseCSVRow ((csvLines content).getD 0 [])) hint
            ∈ parseCSVRow ((csvLines content).getD 0 [])
        · rw [if_pos hmem] at hout
          exact (Except.ok.inj hout).symm
        · rw [if_neg hmem] at hout
          exact absurd hout (by simp)
    subst hout'
    simp only [uploadOutcomeOf]
    have hm := mem_uploadRecords (csvLines content)
      (parseCSVRow ((csvLines content).getD 0 []))
      ((parseCSVRow ((csvLines content).getD 0 [])).findIdx
        (· == resolveEmailColumn
          (parseCSVRow ((csvLines content).getD 0 [])) hint)) r hr
    have h4 := hm.2.2.2
    constructor
    · intro hlen
      have he : r.email =
          jsTrim ((parseCSVRow ((csvLines content).getD r.row_number
            [])).getD
            ((parseCSVRow ((csvLines content).getD 0 [])).findIdx
              (· == resolveEmailColumn
                (parseCSVRow ((csvLines content).getD 0 [])) hint)) []) := by
        conv_lhs => rw [h4]
        rfl
      rw [he, List.getD_eq_default _ _ hlen]
      rfl
    · intro idx hcol hidx hne hlen
      have ha : r.additional_data =
          mkAdditional (parseCSVRow ((csvLines content).getD 0 []))
            ((parseCSVRow ((csvLines content).getD 0 [])).findIdx
              (· == resolveEmailColumn
                (parseCSVRow ((csvLines content).getD 0 [])) hint))
            (parseCSVRow ((csvLines content).getD r.row_number [])) := by
        conv_lhs => rw [h4]
        rfl
      rw [ha]
      unfold mkAdditional
      refine List.mem_filterMap.2 ⟨(idx, hcol), ?_, ?_⟩
      · exact List.mk_mem_enum_iff_getElem?.2 hidx
      · rw [if_neg hne, List.getD_eq_default _ _ hlen]

/-- Witness for C10: uploading `name,email,age` with the single short data
row `x` succeeds; the record's email is empty and `age` maps to `""`. -/
theorem uploadCsv_short_rows_witness :
    ∃ out, uploadCsv "name,email,age\nx".toList none = .ok out ∧
      ∀ r ∈ out.records,
        r.email = [] ∧ ("age".toList, ([] : List Char)) ∈ r.additional_data := by
  have H := (uploadCsv_short_rows "name,email,age\nx".toList none).2 _ rfl
  refine ⟨_, rfl, ?_⟩
  intro r hr
  have h2 := H r hr
  have hrow : r.row_number = 1 := by
    have hb1 := (mem_uploadRecords _ _ _ r hr).1
    have hb2 := (mem_uploadRecords _ _ _ r hr).2.1
    have hL : (csvLines "name,email,age\nx".toList).length = 2 := by decide
    omega
  constructor
  · refine h2.1 ?_
    rw [hrow]
    decide
  · refine h2.2 2 "age".toList (by decide) (by decide) ?_
    rw [hrow]
    decide
